import Mathlib

/-!
Verification of the Confura gas station handler (rpc/handler/cfx_gasstation.go)
and the VIP-only access control middleware, as a shallow embedding: the handler
state is passed explicitly, RPC clients are records of response-valued fields,
and fallible Go functions return a value together with an optional error.
-/

namespace Confura

/-- Go error values crossing this code. The constructor rpcJson models the
well formed JSON-RPC protocol errors (those for which utils.IsRPCJSONError
holds), other models transport and remaining errors, pivotSwitched models the
error created inside fetchBlocks, and clientUnavailable models the sentinel
error StationStatusClientUnavailable. -/
inductive GoError where
  | rpcJson (msg : String) : GoError
  | other (msg : String) : GoError
  | pivotSwitched : GoError
  | clientUnavailable : GoError
deriving DecidableEq

/-- Classification utils.IsRPCJSONError, modelled as a capability check on the
kind tag of the error value. -/
def isRPCJSONError : GoError → Bool
  | .rpcJson _ => true
  | _ => false

/-- TxnPriorityFee: a per transaction tip record of the priority fee window. -/
structure TxnPriorityFee where
  hash : String
  tip : Int
deriving DecidableEq

/-- A transaction of a fetched block. The executed field is modelled from the
spec: util.IsTxExecutedInBlock (not part of this source slice) decides whether
the transaction was actually executed within this specific block. The fee
fields model the optional hexutil.Big pointers of the SDK transaction. -/
structure Txn where
  hash : String
  executed : Bool
  maxPriorityFeePerGas : Option Int
  maxFeePerGas : Option Int
  gasPrice : Int
deriving DecidableEq

/-- A fetched block with the fields the handler consumes. -/
structure Block where
  hash : String
  parentHash : String
  blockNumber : Nat
  baseFeePerGas : Int
  gasUsed : Nat
  gasLimit : Nat
  transactions : List Txn
deriving DecidableEq

/-- BlockPriorityFee: the per block record pushed into the priority fee window.
The field gasUsedRatioQ holds the rational value of the float64 the code
stores, which is the big.Int quotient of gas used by gas limit. -/
structure BlockPriorityFee where
  number : Nat
  hash : String
  baseFee : Int
  gasUsedRatioQ : ℚ
  txnTips : List TxnPriorityFee
deriving DecidableEq

/-- Modelled from the spec: PriorityFeeWindow.Remove (the window code is not
part of this source slice) removes all records whose hash is in the given
list, a point deletion that leaves every other record in place. -/
def windowRemove (w : List BlockPriorityFee) (hashes : List String) :
    List BlockPriorityFee :=
  w.filter (fun r => !(hashes.contains r.hash))

/-- Modelled from the spec: PriorityFeeWindow.Push (the window code is not part
of this source slice) inserts at the newest end and evicts the oldest records
when the size exceeds the capacity. -/
def windowPush (cap : Nat) (w : List BlockPriorityFee) (r : BlockPriorityFee) :
    List BlockPriorityFee :=
  let w2 := w ++ [r]
  if cap < w2.length then w2.drop (w2.length - cap) else w2

/-- The transaction loop of handleBlock: transactions not executed in this
block are skipped; when the max priority fee field is absent it is derived as
the max fee per gas (falling back to the legacy gas price when the max fee is
absent) minus the block base fee, and each surviving transaction yields a tip
record. -/
def blockTxnTips (baseFeePerGas : Int) : List Txn → List TxnPriorityFee
  | [] => []
  | txn :: rest =>
    if !txn.executed then blockTxnTips baseFeePerGas rest
    else
      let txn2 :=
        if txn.maxPriorityFeePerGas.isNone then
          { txn with
            maxPriorityFeePerGas := some ((txn.maxFeePerGas.getD txn.gasPrice) - baseFeePerGas) }
        else txn
      { hash := txn2.hash, tip := txn2.maxPriorityFeePerGas.getD 0 }
        :: blockTxnTips baseFeePerGas rest

/-- The block record built by handleBlock. The gas used ratio is computed by
the code as a big.Int division, an integer quotient, before the float64
conversion; the model keeps that exact value as a rational. -/
def blockFeeRecord (block : Block) : BlockPriorityFee :=
  { number := block.blockNumber,
    hash := block.hash,
    baseFee := block.baseFeePerGas,
    gasUsedRatioQ := ((block.gasUsed / block.gasLimit : Nat) : ℚ),
    txnTips := blockTxnTips block.baseFeePerGas block.transactions }

/-- The gas used ratio as the spec words it: the exact fraction gas used over
gas limit. Stated for comparison with the value the code stores. -/
def specGasUsedFraction (block : Block) : ℚ :=
  (block.gasUsed : ℚ) / (block.gasLimit : ℚ)

/-- handleBlock: derive the priority fee record of one block and push it into
the window. -/
def handleBlock (cap : Nat) (w : List BlockPriorityFee) (block : Block) :
    List BlockPriorityFee :=
  windowPush cap w (blockFeeRecord block)

/-- One upstream full node client: the RPC capabilities the handler consumes,
each returning a value or a Go error. getBlockSummaryByEpoch stands for the
latest block summary fetch of which only the base fee field is consumed. -/
structure CfxClient where
  getEpochNumber : Except GoError Nat
  getBlockByEpoch : Nat → Except GoError Block
  getBlocksByEpoch : Nat → Except GoError (List String)
  getBlockByHashWithPivotAssumption : String → String → Nat → Except GoError Block
  getBlockSummaryByEpoch : Except GoError Int
  getMaxPriorityFeePerGas : Except GoError Int

/-- A client whose every call fails; used only to totalize list indexing at
positions the loops never reach. -/
def defaultClient : CfxClient :=
  { getEpochNumber := .error (.other "no client"),
    getBlockByEpoch := fun _ => .error (.other "no client"),
    getBlocksByEpoch := fun _ => .error (.other "no client"),
    getBlockByHashWithPivotAssumption := fun _ _ _ => .error (.other "no client"),
    getBlockSummaryByEpoch := .error (.other "no client"),
    getMaxPriorityFeePerGas := .error (.other "no client") }

/-- maxCachedBlockHashEpochs: the capacity of the epoch block hash history. -/
def maxCachedBlockHashEpochs : Nat := 100

/-- The mutable state of CfxGasStationHandler that the sync engine owns: the
client cluster and preferred index, the epoch cursor, the epoch block hash
history (front oldest, back newest) and the priority fee window with its
configured capacity (config.HistoricalPeekCount). -/
structure HandlerState where
  clients : List CfxClient
  cliIndex : Nat
  fromEpoch : Nat
  epochBlockHashList : List (List String)
  window : List BlockPriorityFee
  windowCap : Nat

/-- prevEpochPivotBlockHash: the last hash of the newest history entry, or the
empty hash when the history is empty. -/
def prevEpochPivotBlockHash (h : HandlerState) : String :=
  match h.epochBlockHashList.getLast? with
  | none => ""
  | some blockHashes => blockHashes.getLast?.getD ""

/-- pop: remove the newest entry of the epoch block hash history, returning
the removed entry and the remaining history (an empty entry and the unchanged
history when it is empty). -/
def popHashes (l : List (List String)) : List String × List (List String) :=
  match l.getLast? with
  | none => ([], l)
  | some lastEntry => (lastEntry, l.dropLast)

/-- handleReorg: pop the newest epoch entry and remove every window record
whose hash belongs to it. -/
def handleReorg (h : HandlerState) : HandlerState :=
  let popped := popHashes h.epochBlockHashList
  { h with epochBlockHashList := popped.2,
           window := windowRemove h.window popped.1 }

/-- push: append an epoch block hash list to the history, removing the oldest
entry when the capacity is exceeded. -/
def pushHashes (l : List (List String)) (blockHashes : List String) :
    List (List String) :=
  let l2 := l ++ [blockHashes]
  if maxCachedBlockHashEpochs < l2.length then l2.drop 1 else l2

/-- The body fetch loop of fetchBlocks: fetch every non pivot block by hash,
pinned against the pivot hash and the cursor epoch. -/
def fetchBodyBlocks (cfx : CfxClient) (pivotHash : String) (epoch : Nat) :
    List String → Except GoError (List Block)
  | [] => .ok []
  | hsh :: rest =>
    match cfx.getBlockByHashWithPivotAssumption hsh pivotHash epoch with
    | .error e => .error e
    | .ok b => (fetchBodyBlocks cfx pivotHash epoch rest).map (fun bs => b :: bs)

/-- fetchBlocks: get the epoch block hashes, abandon the attempt with the pivot
switched error when the last hash is not the pivot block hash, fetch the non
pivot blocks and append the already fetched pivot block. -/
def fetchBlocks (h : HandlerState) (cfx : CfxClient) (pivotBlock : Block) :
    Except GoError (List String × List Block) :=
  match cfx.getBlocksByEpoch h.fromEpoch with
  | .error e => .error e
  | .ok blockHashes =>
    let pivotHash := blockHashes.getLast?.getD ""
    if pivotBlock.hash ≠ pivotHash then .error .pivotSwitched
    else
      match fetchBodyBlocks cfx pivotHash h.fromEpoch blockHashes.dropLast with
      | .error e => .error e
      | .ok blocks => .ok (blockHashes, blocks ++ [pivotBlock])

/-- trySync: one single epoch sync attempt against one client, returning the
new state, the catch up flag and the error, mirroring the Go method: latest
epoch query, catch up check, pivot fetch, reorg check with rollback, block
fetch, per block ingestion, history push and cursor advance. -/
def trySync (h : HandlerState) (cfx : CfxClient) :
    HandlerState × Bool × Option GoError :=
  match cfx.getEpochNumber with
  | .error e => (h, false, some e)
  | .ok latestEpochNo =>
    if latestEpochNo < h.fromEpoch then (h, true, none)
    else
      match cfx.getBlockByEpoch h.fromEpoch with
      | .error e => (h, false, some e)
      | .ok pivotBlock =>
        let prevEpochBh := prevEpochPivotBlockHash h
        if 0 < prevEpochBh.length ∧ prevEpochBh ≠ pivotBlock.parentHash then
          let h2 := handleReorg h
          ({ h2 with fromEpoch := h2.fromEpoch - 1 }, false, none)
        else
          match fetchBlocks h cfx pivotBlock with
          | .error e => (h, false, some e)
          | .ok (blockHashes, blocks) =>
            let w2 := blocks.foldl (fun w b => handleBlock h.windowCap w b) h.window
            ({ h with window := w2,
                      epochBlockHashList := pushHashes h.epochBlockHashList blockHashes,
                      fromEpoch := h.fromEpoch + 1 }, false, none)

/-- The retry loop of sync: try the client at the current index; on success or
on an RPC JSON error record that index as the preferred one and stop;
otherwise advance modulo the cluster size and stop after the full pass when
the next index is back at the start, returning the result of the last attempt.
The fuel argument only bounds the recursion; sync supplies fuel equal to the
cluster size, which the wrap around check never lets run out. -/
def syncLoop (start : Nat) : Nat → HandlerState → Nat → HandlerState × Bool × Option GoError
  | fuel, h, idx =>
    let r := trySync h (h.clients.getD idx defaultClient)
    match r.2.2 with
    | none => ({ r.1 with cliIndex := idx }, r.2.1, none)
    | some err =>
      if isRPCJSONError err then ({ r.1 with cliIndex := idx }, r.2.1, some err)
      else
        let idx2 := (idx + 1) % r.1.clients.length
        if idx2 = start then (r.1, r.2.1, some err)
        else
          match fuel with
          | 0 => (r.1, r.2.1, some err)
          | fuel2 + 1 => syncLoop start fuel2 r.1 idx2

/-- sync: with an empty cluster report the client unavailable error at once;
otherwise normalize the preferred index modulo the cluster size and run the
failover retry loop starting there. -/
def sync (h : HandlerState) : HandlerState × Bool × Option GoError :=
  if h.clients.length = 0 then (h, false, some .clientUnavailable)
  else
    let start := h.cliIndex % h.clients.length
    syncLoop start h.clients.length { h with cliIndex := start } start

/-- Reference walk for sync, recursing structurally over an explicit list of
member indices: try each listed member in order, stop at the first attempt
returning success or an RPC JSON error (recording its index as preferred), and
when the list runs out return the result of the last attempt unchanged. -/
def syncWalk (h : HandlerState) : List Nat → HandlerState × Bool × Option GoError
  | [] => (h, false, none)
  | idx :: rest =>
    let r := trySync h (h.clients.getD idx defaultClient)
    match r.2.2 with
    | none => ({ r.1 with cliIndex := idx }, r.2.1, none)
    | some err =>
      if isRPCJSONError err then ({ r.1 with cliIndex := idx }, r.2.1, some err)
      else
        match rest with
        | [] => (r.1, r.2.1, some err)
        | _ :: _ => syncWalk r.1 rest

/-- The member index rotation of one full failover pass: n indices starting at
the preferred index with wrap around modulo the cluster size. -/
def attemptIdxs (n start : Nat) : List Nat :=
  (List.range n).map (fun i => (start + i) % n)

/-- Station status: operational, or failed with the stored Go error (which
includes the client unavailable sentinel). -/
inductive StationStatus where
  | ok : StationStatus
  | failed (e : GoError) : StationStatus
deriving DecidableEq

/-- updateStatus: a non nil error that is not an RPC JSON error is stored as
the station status, marking the station unavailable; otherwise the status
becomes operational. -/
def updateStatus (err : Option GoError) : StationStatus :=
  match err with
  | some e => if !(isRPCJSONError e) then .failed e else .ok
  | none => .ok

/-- The gas fee statistics the priority fee window computes on demand; the
window Calculate code is not part of this source slice, so Suggest below takes
the statistics it returns as a parameter. Trends are kept abstract as
strings. -/
structure GasFeeStats where
  avgPercentiledPriorityFee : Option (List Int)
  networkCongestion : ℚ
  latestPriorityFeeRange : List Int
  historicalPriorityFeeRange : List Int
  historicalBaseFeeRange : List Int
  priorityFeeTrend : String
  baseFeeTrend : String
deriving DecidableEq

/-- One suggested tier: priority fee and max fee. -/
structure GasFeeEstimation where
  suggestedMaxPriorityFeePerGas : Int
  suggestedMaxFeePerGas : Int
deriving DecidableEq

/-- The suggestion response returned to callers. -/
structure SuggestedGasFees where
  low : GasFeeEstimation
  medium : GasFeeEstimation
  high : GasFeeEstimation
  estimatedBaseFee : Int
  networkCongestion : ℚ
  latestPriorityFeeRange : List Int
  historicalPriorityFeeRange : List Int
  historicalBaseFeeRange : List Int
  priorityFeeTrend : String
  baseFeeTrend : String
deriving DecidableEq

/-- Modelled from the spec: ToHexBigSlice (not part of this source slice) is a
hex representation conversion of big integer slices, value preserving. -/
def ToHexBigSlice (xs : List Int) : List Int := xs

/-- Suggest: fail at once with the stored status when it is not operational;
otherwise fetch the live base fee from the latest block summary, take the
window statistics, fall back to the oracle priority fee repeated for the three
tiers when the window made no estimation, and compose the three tier response
with per tier max fee equal to base fee plus tier priority fee, carrying the
remaining statistics fields through. -/
def Suggest (status : StationStatus) (cfx : CfxClient) (stats : GasFeeStats) :
    Except GoError SuggestedGasFees :=
  match status with
  | .failed e => .error e
  | .ok =>
    match cfx.getBlockSummaryByEpoch with
    | .error e => .error e
    | .ok baseFeePerGas =>
      let fees0 : Except GoError (List Int) :=
        match stats.avgPercentiledPriorityFee with
        | some fees => .ok fees
        | none =>
          match cfx.getMaxPriorityFeePerGas with
          | .error e => .error e
          | .ok oracleFee => .ok [oracleFee, oracleFee, oracleFee]
      match fees0 with
      | .error e => .error e
      | .ok priorityFees =>
        .ok { low := { suggestedMaxPriorityFeePerGas := priorityFees.getD 0 0,
                       suggestedMaxFeePerGas := baseFeePerGas + priorityFees.getD 0 0 },
              medium := { suggestedMaxPriorityFeePerGas := priorityFees.getD 1 0,
                          suggestedMaxFeePerGas := baseFeePerGas + priorityFees.getD 1 0 },
              high := { suggestedMaxPriorityFeePerGas := priorityFees.getD 2 0,
                        suggestedMaxFeePerGas := baseFeePerGas + priorityFees.getD 2 0 },
              estimatedBaseFee := baseFeePerGas,
              networkCongestion := stats.networkCongestion,
              latestPriorityFeeRange := ToHexBigSlice stats.latestPriorityFeeRange,
              historicalPriorityFeeRange := ToHexBigSlice stats.historicalPriorityFeeRange,
              historicalBaseFeeRange := ToHexBigSlice stats.historicalBaseFeeRange,
              priorityFeeTrend := stats.priorityFeeTrend,
              baseFeeTrend := stats.baseFeeTrend }

/-- The access forbidden error message of the middleware. -/
def errAccessForbidden : String := "access forbidden"

/-- An incoming RPC call message; only the method name is consumed here. -/
structure RpcMessage where
  method : String
deriving DecidableEq

/-- The response of a call handler: either a handled payload or an error
response built from the message. -/
inductive RpcResponse where
  | handled (payload : String) : RpcResponse
  | failure (msg : String) : RpcResponse
deriving DecidableEq

/-- The rate registry reachable through the call context; svipStatus models
the pair returned by SVipStatusFromContext, some when the lookup succeeds. -/
structure SVipRegistry where
  svipStatus : Option Int

/-- Modelled from the spec: the call context carries the result of the VIP
lookup handlers.VipStatusFromContext and the optional rate registry with its
SVIP lookup; their code is not part of this source slice, so they are modelled
as context fields. -/
structure CallContext where
  vipStatusOk : Bool
  rateRegistry : Option SVipRegistry

/-- The VIP only access control middleware built by
MustNewVipOnlyAccessControlMiddlewareFromViper: calls whose method is not in
the ACL pass through; for ACL methods the next handler runs for a VIP context
or for an SVIP status above zero, and otherwise the access forbidden error
response is returned. -/
def vipOnlyAccessControl (acl : List String)
    (next : CallContext → RpcMessage → RpcResponse)
    (ctx : CallContext) (msg : RpcMessage) : RpcResponse :=
  if !(acl.contains msg.method) then next ctx msg
  else if ctx.vipStatusOk then next ctx msg
  else
    match ctx.rateRegistry with
    | some registry =>
      match registry.svipStatus with
      | some svip => if 0 < svip then next ctx msg else .failure errAccessForbidden
      | none => .failure errAccessForbidden
    | none => .failure errAccessForbidden

/-- trySync never touches the client cluster, the preferred index or the
window capacity: it only moves the cursor, the history and the window. -/
theorem trySync_frame (h : HandlerState) (cfx : CfxClient) :
    (trySync h cfx).1.clients = h.clients
    ∧ (trySync h cfx).1.cliIndex = h.cliIndex
    ∧ (trySync h cfx).1.windowCap = h.windowCap := by
  unfold trySync
  dsimp only
  repeat' split
  all_goals exact ⟨rfl, rfl, rfl⟩

/-- Claim C3: after a sync attempt, updateStatus stores the error itself as
the station status exactly when the error is non nil and not an RPC JSON
error; when the error is nil or is an RPC JSON error the status becomes
operational. -/
theorem updateStatus_spec (e : GoError) :
    (isRPCJSONError e = false → updateStatus (some e) = .failed e)
    ∧ (isRPCJSONError e = true → updateStatus (some e) = .ok)
    ∧ updateStatus none = .ok := by
  refine ⟨fun hrpc => ?_, fun hrpc => ?_, rfl⟩ <;> simp [updateStatus, hrpc]

/-- Witness for claim C3 at concrete errors: a transport error marks the
station unavailable with that error, an RPC JSON error leaves it
operational. -/
theorem updateStatus_spec_witness :
    updateStatus (some (GoError.other "connection refused"))
      = StationStatus.failed (GoError.other "connection refused")
    ∧ updateStatus (some (GoError.rpcJson "bad params")) = StationStatus.ok :=
  ⟨(updateStatus_spec (GoError.other "connection refused")).1 rfl,
   (updateStatus_spec (GoError.rpcJson "bad params")).2.1 rfl⟩

/-- Claim C9: when the station status is not operational, Suggest fails at
once with that status as the error, for every client and every window
statistics value, hence independently of any upstream call or window read. -/
theorem Suggest_unavailable (e : GoError) (cfx : CfxClient) (stats : GasFeeStats) :
    Suggest (.failed e) cfx stats = .error e := rfl

/-- A concrete block with gas used 50 and gas limit 100. -/
def c5Block : Block :=
  { hash := "0xC5", parentHash := "0xC4", blockNumber := 5, baseFeePerGas := 10,
    gasUsed := 50, gasLimit := 100, transactions := [] }

/-- Claim C5 is violated by the code: at gas used 50 and gas limit 100 the
record built by handleBlock stores the big.Int integer quotient, which is 0,
while the gas used ratio the spec describes is the exact fraction one half. -/
theorem gasUsedRatio_div_bug :
    (blockFeeRecord c5Block).gasUsedRatioQ = 0
    ∧ specGasUsedFraction c5Block = 1 / 2
    ∧ (blockFeeRecord c5Block).gasUsedRatioQ ≠ specGasUsedFraction c5Block := by
  refine ⟨?_, ?_, ?_⟩ <;> norm_num [blockFeeRecord, specGasUsedFraction, c5Block]

/-- The transaction loop of handleBlock written as one filterMap: a
transaction yields a tip record exactly when executed, with the tip equal to
the explicit max priority fee when present and otherwise the max fee per gas
(or the legacy gas price when the max fee is absent) minus the base fee. -/
theorem blockTxnTips_eq_filterMap (baseFeePerGas : Int) (txns : List Txn) :
    blockTxnTips baseFeePerGas txns = txns.filterMap (fun txn =>
      if txn.executed then
        some { hash := txn.hash,
               tip := match txn.maxPriorityFeePerGas with
                      | some tp => tp
                      | none => (match txn.maxFeePerGas with
                                 | some mf => mf
                                 | none => txn.gasPrice) - baseFeePerGas }
      else none) := by
  induction txns with
  | nil => rfl
  | cons txn rest ih =>
    cases hexec : txn.executed with
    | false => simp [blockTxnTips, hexec, List.filterMap_cons, ih]
    | true =>
      cases hmp : txn.maxPriorityFeePerGas with
      | some tp => simp [blockTxnTips, hexec, hmp, List.filterMap_cons, ih]
      | none =>
        cases hmf : txn.maxFeePerGas with
        | some mf => simp [blockTxnTips, hexec, hmp, hmf, List.filterMap_cons, ih]
        | none => simp [blockTxnTips, hexec, hmp, hmf, List.filterMap_cons, ih]

/-- Claim C8: in the record handleBlock builds for a block, a transaction
contributes a tip record exactly when it was executed in that block, in
order, and its tip is the explicit max priority fee when present and
otherwise the max fee per gas (falling back to the legacy gas price when the
max fee is absent) minus the block base fee. -/
theorem handleBlock_txn_eligibility (block : Block) :
    (blockFeeRecord block).txnTips = block.transactions.filterMap (fun txn =>
      if txn.executed then
        some { hash := txn.hash,
               tip := match txn.maxPriorityFeePerGas with
                      | some tp => tp
                      | none => (match txn.maxFeePerGas with
                                 | some mf => mf
                                 | none => txn.gasPrice) - block.baseFeePerGas }
      else none) :=
  blockTxnTips_eq_filterMap block.baseFeePerGas block.transactions

/-- Claim C10: calls whose method is not in the VIP only ACL pass through to
the next handler unchanged; for ACL methods the next handler runs when the
context carries a VIP status or an SVIP status above zero, and otherwise the
access forbidden error response is returned, for every next handler, hence
without invoking it. -/
theorem vipOnlyAccessControl_spec (acl : List String)
    (next : CallContext → RpcMessage → RpcResponse)
    (ctx : CallContext) (msg : RpcMessage) :
    (acl.contains msg.method = false →
      vipOnlyAccessControl acl next ctx msg = next ctx msg)
    ∧ (acl.contains msg.method = true →
        ((ctx.vipStatusOk = true
            ∨ ∃ registry svip, ctx.rateRegistry = some registry
                ∧ registry.svipStatus = some svip ∧ 0 < svip) →
          vipOnlyAccessControl acl next ctx msg = next ctx msg)
        ∧ (ctx.vipStatusOk = false →
            (∀ registry svip, ctx.rateRegistry = some registry →
              registry.svipStatus = some svip → svip ≤ 0) →
          vipOnlyAccessControl acl next ctx msg = .failure errAccessForbidden)) := by
  unfold vipOnlyAccessControl
  refine ⟨fun hnotin => ?_, fun hin => ⟨?_, ?_⟩⟩
  · rw [hnotin]
    rfl
  · rintro (hvip | ⟨registry, svip, hreg, hsvip, hpos⟩)
    · rw [hin, hvip]
      rfl
    · cases hvipb : ctx.vipStatusOk with
      | true => rw [hin]; rfl
      | false =>
        rw [hin, hreg]
        dsimp only
        rw [hsvip]
        dsimp only
        rw [if_pos hpos]
        rfl
  · intro hvip hnosvip
    cases hreg : ctx.rateRegistry with
    | none => rw [hin, hvip]; rfl
    | some registry =>
      cases hsvip : registry.svipStatus with
      | none =>
        rw [hin, hvip]
        dsimp only
        rw [hsvip]
        rfl
      | some svip =>
        have hle : svip ≤ 0 := hnosvip registry svip hreg hsvip
        rw [hin, hvip]
        dsimp only
        rw [hsvip]
        dsimp only
        rw [if_neg (not_lt.mpr hle)]
        rfl

/-- Witness for claim C10 at concrete inputs: a non ACL method passes
through, a VIP caller passes through on an ACL method, and a caller with
neither VIP nor positive SVIP status is forbidden on an ACL method. -/
theorem vipOnlyAccessControl_spec_witness :
    vipOnlyAccessControl ["txpool_content"]
        (fun _ _ => RpcResponse.handled "done")
        { vipStatusOk := false, rateRegistry := none } { method := "cfx_getStatus" }
      = RpcResponse.handled "done"
    ∧ vipOnlyAccessControl ["txpool_content"]
        (fun _ _ => RpcResponse.handled "done")
        { vipStatusOk := true, rateRegistry := none } { method := "txpool_content" }
      = RpcResponse.handled "done"
    ∧ vipOnlyAccessControl ["txpool_content"]
        (fun _ _ => RpcResponse.handled "done")
        { vipStatusOk := false, rateRegistry := some { svipStatus := some 0 } }
        { method := "txpool_content" }
      = RpcResponse.failure errAccessForbidden :=
  ⟨(vipOnlyAccessControl_spec ["txpool_content"] (fun _ _ => RpcResponse.handled "done")
      { vipStatusOk := false, rateRegistry := none } { method := "cfx_getStatus" }).1
      (by decide),
   ((vipOnlyAccessControl_spec ["txpool_content"] (fun _ _ => RpcResponse.handled "done")
      { vipStatusOk := true, rateRegistry := none } { method := "txpool_content" }).2
      (by decide)).1 (Or.inl rfl),
   ((vipOnlyAccessControl_spec ["txpool_content"] (fun _ _ => RpcResponse.handled "done")
      { vipStatusOk := false, rateRegistry := some { svipStatus := some 0 } }
      { method := "txpool_content" }).2 (by decide)).2 rfl
      (by rintro registry svip hreg hsvip; injection hreg with hreg2; subst hreg2;
          injection hsvip with hsvip2; omega)⟩

/-- Claim C1: in a sync attempt where the epoch hash history is non empty and
the pivot hash of its newest entry differs from the parent hash of the newly
fetched pivot block, trySync evicts exactly that newest entry, removes from
the window exactly the records whose hashes belong to it, decrements the
cursor by exactly one, and returns without error, without ingesting any block
data and without appending to the history. -/
theorem trySync_reorg (h : HandlerState) (cfx : CfxClient)
    (latest : Nat) (pivotBlock : Block) (evicted : List String)
    (hlatest : cfx.getEpochNumber = .ok latest)
    (hle : h.fromEpoch ≤ latest)
    (hpivot : cfx.getBlockByEpoch h.fromEpoch = .ok pivotBlock)
    (hlast : h.epochBlockHashList.getLast? = some evicted)
    (hlen : 0 < (prevEpochPivotBlockHash h).length)
    (hmismatch : prevEpochPivotBlockHash h ≠ pivotBlock.parentHash)
    (hpos : 1 ≤ h.fromEpoch) :
    trySync h cfx =
      ({ h with epochBlockHashList := h.epochBlockHashList.dropLast,
                window := h.window.filter (fun r => !(evicted.contains r.hash)),
                fromEpoch := h.fromEpoch - 1 }, false, none)
    ∧ (trySync h cfx).1.fromEpoch + 1 = h.fromEpoch := by
  have heq : trySync h cfx =
      ({ h with epochBlockHashList := h.epochBlockHashList.dropLast,
                window := h.window.filter (fun r => !(evicted.contains r.hash)),
                fromEpoch := h.fromEpoch - 1 }, false, none) := by
    unfold trySync
    rw [hlatest]
    dsimp only
    rw [if_neg (by omega), hpivot]
    dsimp only
    rw [if_pos ⟨hlen, hmismatch⟩]
    unfold handleReorg popHashes windowRemove
    rw [hlast]
  refine ⟨heq, ?_⟩
  rw [heq]
  dsimp only
  omega

/-- A concrete reorg state for the claim C1 witness: the history holds one
epoch with pivot hash 0xAA, the window holds one record of that epoch and one
unrelated record, and the cursor is at epoch 100. -/
def c1State : HandlerState :=
  { clients := [], cliIndex := 0, fromEpoch := 100,
    epochBlockHashList := [["0xA0", "0xAA"]],
    window := [{ number := 1, hash := "0xA0", baseFee := 5, gasUsedRatioQ := 0, txnTips := [] },
               { number := 2, hash := "0xCC", baseFee := 6, gasUsedRatioQ := 0, txnTips := [] }],
    windowCap := 10 }

/-- The new pivot block of the claim C1 witness, whose parent hash 0xBB does
not match the cached pivot hash 0xAA. -/
def c1Block : Block :=
  { hash := "0xB1", parentHash := "0xBB", blockNumber := 3, baseFeePerGas := 7,
    gasUsed := 0, gasLimit := 1, transactions := [] }

/-- A client for the claim C1 witness returning latest epoch 200 and the
mismatching pivot block. -/
def c1Client : CfxClient :=
  { getEpochNumber := .ok 200,
    getBlockByEpoch := fun _ => .ok c1Block,
    getBlocksByEpoch := fun _ => .error (.other "unused"),
    getBlockByHashWithPivotAssumption := fun _ _ _ => .error (.other "unused"),
    getBlockSummaryByEpoch := .error (.other "unused"),
    getMaxPriorityFeePerGas := .error (.other "unused") }

/-- Witness for claim C1: on the concrete reorg state the attempt evicts the
cached epoch, drops exactly its record from the window and moves the cursor
from 100 to 99. -/
theorem trySync_reorg_witness :
    trySync c1State c1Client =
      ({ c1State with epochBlockHashList := c1State.epochBlockHashList.dropLast,
                      window := c1State.window.filter
                        (fun r => !((["0xA0", "0xAA"] : List String).contains r.hash)),
                      fromEpoch := c1State.fromEpoch - 1 }, false, none)
    ∧ (trySync c1State c1Client).1.fromEpoch + 1 = c1State.fromEpoch :=
  trySync_reorg c1State c1Client 200 c1Block ["0xA0", "0xAA"]
    rfl (by decide) rfl rfl (by decide) (by decide) (by decide)

/-- Claim C7: when the fetched epoch block hash list ends with a hash that
differs from the hash of the previously fetched pivot block, the attempt is
abandoned with the pivot switched error and the handler state is returned
unchanged: same cursor, same history, same window. -/
theorem trySync_pivotSwitch (h : HandlerState) (cfx : CfxClient)
    (latest : Nat) (pivotBlock : Block) (blockHashes : List String) (lastHash : String)
    (hlatest : cfx.getEpochNumber = .ok latest)
    (hle : h.fromEpoch ≤ latest)
    (hpivot : cfx.getBlockByEpoch h.fromEpoch = .ok pivotBlock)
    (hnoreorg : ¬(0 < (prevEpochPivotBlockHash h).length
        ∧ prevEpochPivotBlockHash h ≠ pivotBlock.parentHash))
    (hhashes : cfx.getBlocksByEpoch h.fromEpoch = .ok blockHashes)
    (hlast : blockHashes.getLast? = some lastHash)
    (hmismatch : pivotBlock.hash ≠ lastHash) :
    trySync h cfx = (h, false, some .pivotSwitched) := by
  unfold trySync
  rw [hlatest]
  dsimp only
  rw [if_neg (by omega), hpivot]
  dsimp only
  rw [if_neg hnoreorg]
  unfold fetchBlocks
  rw [hhashes]
  dsimp only
  rw [hlast]
  dsimp only [Option.getD]
  rw [if_pos hmismatch]

/-- A state for the claim C7 witness: empty history (so no reorg check
fires), cursor at epoch 100. -/
def c7State : HandlerState :=
  { clients := [], cliIndex := 0, fromEpoch := 100,
    epochBlockHashList := [], window := [], windowCap := 10 }

/-- The pivot block of the claim C7 witness. -/
def c7Block : Block :=
  { hash := "0xD1", parentHash := "0xD0", blockNumber := 9, baseFeePerGas := 7,
    gasUsed := 0, gasLimit := 1, transactions := [] }

/-- A client for the claim C7 witness whose epoch hash list ends with a hash
different from the fetched pivot block hash. -/
def c7Client : CfxClient :=
  { getEpochNumber := .ok 200,
    getBlockByEpoch := fun _ => .ok c7Block,
    getBlocksByEpoch := fun _ => .ok ["0xD2", "0xD3"],
    getBlockByHashWithPivotAssumption := fun _ _ _ => .error (.other "unused"),
    getBlockSummaryByEpoch := .error (.other "unused"),
    getMaxPriorityFeePerGas := .error (.other "unused") }

/-- Witness for claim C7: on the concrete state the attempt returns the pivot
switched error with the state unchanged. -/
theorem trySync_pivotSwitch_witness :
    trySync c7State c7Client = (c7State, false, some .pivotSwitched) :=
  trySync_pivotSwitch c7State c7Client 200 c7Block ["0xD2", "0xD3"] "0xD3"
    rfl (by decide) rfl (by decide) rfl rfl (by decide)

/-- Claim C4: with an operational status and a successful live base fee
fetch, Suggest uses the three per percentile estimates of the statistics when
they exist, and otherwise the live oracle priority fee repeated for the three
tiers; each tier max fee is the fetched base fee plus that tier priority fee,
and the base fee, congestion score, both fee ranges and both trends are
passed through from the statistics unchanged. -/
theorem Suggest_ok_composition (cfx : CfxClient) (stats : GasFeeStats) (base : Int)
    (hbase : cfx.getBlockSummaryByEpoch = .ok base) :
    (∀ a b c, stats.avgPercentiledPriorityFee = some [a, b, c] →
      Suggest .ok cfx stats = .ok
        { low := { suggestedMaxPriorityFeePerGas := a, suggestedMaxFeePerGas := base + a },
          medium := { suggestedMaxPriorityFeePerGas := b, suggestedMaxFeePerGas := base + b },
          high := { suggestedMaxPriorityFeePerGas := c, suggestedMaxFeePerGas := base + c },
          estimatedBaseFee := base,
          networkCongestion := stats.networkCongestion,
          latestPriorityFeeRange := stats.latestPriorityFeeRange,
          historicalPriorityFeeRange := stats.historicalPriorityFeeRange,
          historicalBaseFeeRange := stats.historicalBaseFeeRange,
          priorityFeeTrend := stats.priorityFeeTrend,
          baseFeeTrend := stats.baseFeeTrend })
    ∧ (∀ oracleFee, stats.avgPercentiledPriorityFee = none →
        cfx.getMaxPriorityFeePerGas = .ok oracleFee →
      Suggest .ok cfx stats = .ok
        { low := { suggestedMaxPriorityFeePerGas := oracleFee,
                   suggestedMaxFeePerGas := base + oracleFee },
          medium := { suggestedMaxPriorityFeePerGas := oracleFee,
                      suggestedMaxFeePerGas := base + oracleFee },
          high := { suggestedMaxPriorityFeePerGas := oracleFee,
                    suggestedMaxFeePerGas := base + oracleFee },
          estimatedBaseFee := base,
          networkCongestion := stats.networkCongestion,
          latestPriorityFeeRange := stats.latestPriorityFeeRange,
          historicalPriorityFeeRange := stats.historicalPriorityFeeRange,
          historicalBaseFeeRange := stats.historicalBaseFeeRange,
          priorityFeeTrend := stats.priorityFeeTrend,
          baseFeeTrend := stats.baseFeeTrend }) := by
  constructor
  · intro a b c hfees
    unfold Suggest
    rw [hbase]
    dsimp only
    rw [hfees]
    rfl
  · intro oracleFee hnone horacle
    unfold Suggest
    rw [hbase]
    dsimp only
    rw [hnone]
    dsimp only
    rw [horacle]
    rfl

/-- The statistics of the claim C4 witness: three estimates 1, 2 and 3. -/
def c4Stats : GasFeeStats :=
  { avgPercentiledPriorityFee := some [1, 2, 3],
    networkCongestion := 1 / 2,
    latestPriorityFeeRange := [1, 3],
    historicalPriorityFeeRange := [1, 4],
    historicalBaseFeeRange := [9, 11],
    priorityFeeTrend := "up",
    baseFeeTrend := "down" }

/-- A client for the claim C4 witness whose latest block summary carries base
fee 10. -/
def c4Client : CfxClient :=
  { getEpochNumber := .error (.other "unused"),
    getBlockByEpoch := fun _ => .error (.other "unused"),
    getBlocksByEpoch := fun _ => .error (.other "unused"),
    getBlockByHashWithPivotAssumption := fun _ _ _ => .error (.other "unused"),
    getBlockSummaryByEpoch := .ok 10,
    getMaxPriorityFeePerGas := .ok 7 }

/-- Witness for claim C4: with estimates 1, 2, 3 and base fee 10 the three
tiers are (1, 11), (2, 12), (3, 13) with the statistics carried through. -/
theorem Suggest_ok_composition_witness :
    Suggest .ok c4Client c4Stats = .ok
      { low := { suggestedMaxPriorityFeePerGas := 1, suggestedMaxFeePerGas := 10 + 1 },
        medium := { suggestedMaxPriorityFeePerGas := 2, suggestedMaxFeePerGas := 10 + 2 },
        high := { suggestedMaxPriorityFeePerGas := 3, suggestedMaxFeePerGas := 10 + 3 },
        estimatedBaseFee := 10,
        networkCongestion := c4Stats.networkCongestion,
        latestPriorityFeeRange := c4Stats.latestPriorityFeeRange,
        historicalPriorityFeeRange := c4Stats.historicalPriorityFeeRange,
        historicalBaseFeeRange := c4Stats.historicalBaseFeeRange,
        priorityFeeTrend := c4Stats.priorityFeeTrend,
        baseFeeTrend := c4Stats.baseFeeTrend } :=
  (Suggest_ok_composition c4Client c4Stats 10 rfl).1 1 2 3 rfl

/-- The index rotation from an arbitrary loop position: the next m indices
modulo n. -/
def rotRange (n idx m : Nat) : List Nat :=
  (List.range m).map (fun i => (idx + i) % n)

theorem attemptIdxs_eq_rotRange (n s : Nat) : attemptIdxs n s = rotRange n s n := rfl

theorem rotRange_zero (n idx : Nat) : rotRange n idx 0 = [] := rfl

theorem rotRange_succ (n idx m : Nat) :
    rotRange n idx (m + 1) = (idx % n) :: rotRange n ((idx + 1) % n) m := by
  have hcomp : ((fun i : Nat => (idx + i) % n) ∘ Nat.succ)
      = (fun i : Nat => ((idx + 1) % n + i) % n) := by
    funext i
    show (idx + (i + 1)) % n = ((idx + 1) % n + i) % n
    rw [Nat.mod_add_mod]
    congr 1
    omega
  unfold rotRange
  rw [List.range_succ_eq_map, List.map_cons, List.map_map, hcomp]
  simp only [Nat.add_zero]

/-- The loop cannot be back at the start after one step when at least two
indices of the pass remain. -/
theorem rot_no_early_wrap (n start idx m : Nat) (h2 : 2 ≤ m) (hmn : m ≤ n)
    (hwrap : (idx + m) % n = start) (h1 : (idx + 1) % n = start) : False := by
  have hmod : (idx + 1) % n = (idx + m) % n := by rw [h1, hwrap]
  have hcan : 1 % n = m % n := Nat.ModEq.add_left_cancel' idx hmod
  rcases lt_or_eq_of_le hmn with hlt | heq
  · rw [Nat.mod_eq_of_lt hlt, Nat.mod_eq_of_lt (by omega)] at hcan
    omega
  · subst heq
    rw [Nat.mod_self, Nat.mod_eq_of_lt (by omega)] at hcan
    omega

/-- The retry loop of sync equals the structural walk over the rotation of
the m remaining indices of the pass, whenever the fuel covers them. -/
theorem syncLoop_eq_syncWalk (n start : Nat) (_hstart : start < n) :
    ∀ m fuel idx h, 1 ≤ m → m ≤ n → idx < n → (idx + m) % n = start →
      h.clients.length = n → m ≤ fuel + 1 →
      syncLoop start fuel h idx = syncWalk h (rotRange n idx m) := by
  intro m
  induction m with
  | zero =>
    intro fuel idx h h1 _ _ _ _ _
    exact absurd h1 (by decide)
  | succ m ih =>
    intro fuel idx h h1 hmn hidx hwrap hlen hfuel
    have hn : 0 < n := by omega
    rw [rotRange_succ, Nat.mod_eq_of_lt hidx]
    rw [syncLoop.eq_def]
    rcases hr : trySync h (h.clients.getD idx defaultClient) with ⟨h1s, c1, e1⟩
    have hlen2 : h1s.clients.length = n := by
      have hfr := (trySync_frame h (h.clients.getD idx defaultClient)).1
      rw [hr] at hfr
      dsimp only at hfr
      rw [hfr, hlen]
    conv_rhs => rw [syncWalk.eq_def]
    dsimp only
    rw [hr]
    dsimp only
    cases e1 with
    | none => rfl
    | some err =>
      dsimp only
      cases hrpc : isRPCJSONError err with
      | true => rfl
      | false =>
        rw [hlen2]
        cases m with
        | zero =>
          rw [if_pos hwrap, rotRange_zero]
        | succ m2 =>
          have hne : (idx + 1) % n ≠ start := fun hcon =>
            rot_no_early_wrap n start idx (m2 + 2) (by omega) hmn hwrap hcon
          rw [if_neg hne]
          cases fuel with
          | zero => exact absurd hfuel (by omega)
          | succ fuel2 =>
            dsimp only
            rw [rotRange_succ]
            dsimp only
            rw [← rotRange_succ]
            refine ih fuel2 ((idx + 1) % n) h1s (by omega) (by omega)
              (Nat.mod_lt _ hn) ?_ hlen2 (by omega)
            rw [Nat.mod_add_mod]
            have harith : idx + 1 + (m2 + 1) = idx + (m2 + 1 + 1) := by omega
            rw [harith]
            exact hwrap

/-- Claim C2: for a non empty client list one sync call first normalizes the
preferred index modulo the cluster size and then behaves exactly as the
structural walk over the full rotation of member indices starting at the
preferred index with wrap around: it stops at the first member whose attempt
returns success or an RPC JSON error, and when every member fails it stops
after the one full pass with the error of the last member tried; the rotation
has one index per member and no duplicates, so each member is attempted at
most once and the walk terminates structurally. -/
theorem sync_failover (h : HandlerState) (hne : h.clients ≠ []) :
    sync h = syncWalk { h with cliIndex := h.cliIndex % h.clients.length }
        (attemptIdxs h.clients.length (h.cliIndex % h.clients.length))
    ∧ (attemptIdxs h.clients.length (h.cliIndex % h.clients.length)).length
        = h.clients.length
    ∧ (attemptIdxs h.clients.length (h.cliIndex % h.clients.length)).Nodup := by
  have hn : 0 < h.clients.length := List.length_pos.mpr hne
  have hstart : h.cliIndex % h.clients.length < h.clients.length := Nat.mod_lt _ hn
  refine ⟨?_, by simp [attemptIdxs], ?_⟩
  · unfold sync
    rw [if_neg (by omega), attemptIdxs_eq_rotRange]
    refine syncLoop_eq_syncWalk h.clients.length (h.cliIndex % h.clients.length)
      hstart h.clients.length h.clients.length (h.cliIndex % h.clients.length)
      { h with cliIndex := h.cliIndex % h.clients.length }
      (by omega) (le_refl _) hstart ?_ rfl (by omega)
    rw [Nat.add_mod_right]
    exact Nat.mod_eq_of_lt hstart
  · unfold attemptIdxs
    refine List.Nodup.map_on ?_ (List.nodup_range _)
    intro i hi j hj hf
    have hi2 := List.mem_range.mp hi
    have hj2 := List.mem_range.mp hj
    have hcan : i % h.clients.length = j % h.clients.length :=
      Nat.ModEq.add_left_cancel' (h.cliIndex % h.clients.length) hf
    rw [Nat.mod_eq_of_lt hi2, Nat.mod_eq_of_lt hj2] at hcan
    exact hcan

/-- A client for the claim C2 witness that always fails with a transport
error. -/
def c2ErrClient : CfxClient :=
  { getEpochNumber := .error (.other "connection reset"),
    getBlockByEpoch := fun _ => .error (.other "connection reset"),
    getBlocksByEpoch := fun _ => .error (.other "connection reset"),
    getBlockByHashWithPivotAssumption := fun _ _ _ => .error (.other "connection reset"),
    getBlockSummaryByEpoch := .error (.other "connection reset"),
    getMaxPriorityFeePerGas := .error (.other "connection reset") }

/-- A client for the claim C2 witness that reports latest epoch 0, making the
attempt report caught up. -/
def c2OkClient : CfxClient :=
  { getEpochNumber := .ok 0,
    getBlockByEpoch := fun _ => .error (.other "unused"),
    getBlocksByEpoch := fun _ => .error (.other "unused"),
    getBlockByHashWithPivotAssumption := fun _ _ _ => .error (.other "unused"),
    getBlockSummaryByEpoch := .error (.other "unused"),
    getMaxPriorityFeePerGas := .error (.other "unused") }

/-- A two member cluster for the claim C2 witness: the first member fails
with a transport error, the second succeeds. -/
def c2State : HandlerState :=
  { clients := [c2ErrClient, c2OkClient], cliIndex := 0, fromEpoch := 5,
    epochBlockHashList := [], window := [], windowCap := 10 }

/-- Witness for claim C2 at the concrete two member cluster. -/
theorem sync_failover_witness :
    sync c2State = syncWalk { c2State with cliIndex := c2State.cliIndex % c2State.clients.length }
        (attemptIdxs c2State.clients.length (c2State.cliIndex % c2State.clients.length))
    ∧ (attemptIdxs c2State.clients.length (c2State.cliIndex % c2State.clients.length)).length
        = c2State.clients.length
    ∧ (attemptIdxs c2State.clients.length (c2State.cliIndex % c2State.clients.length)).Nodup :=
  sync_failover c2State (by simp [c2State])

/-- Pushing one epoch entry grows the history by at most one entry. -/
theorem pushHashes_length_le (l : List (List String)) (hs : List String) :
    (pushHashes l hs).length ≤ l.length + 1 := by
  unfold pushHashes
  dsimp only
  split
  · simp
  · simp

/-- The cursor invariant: the cursor dominates the configured starting epoch
plus the history length, so every reorg decrement is covered by a history
entry created by a prior increment. -/
def CursorInv (startEpoch : Nat) (h : HandlerState) : Prop :=
  startEpoch + h.epochBlockHashList.length ≤ h.fromEpoch

/-- One attempt preserves the cursor invariant, whatever the client answers. -/
theorem trySync_cursorInv (s0 : Nat) (h : HandlerState) (cfx : CfxClient)
    (hInv : CursorInv s0 h) : CursorInv s0 (trySync h cfx).1 := by
  unfold trySync
  cases cfx.getEpochNumber with
  | error e => exact hInv
  | ok latest =>
    dsimp only
    split
    · exact hInv
    · cases cfx.getBlockByEpoch h.fromEpoch with
      | error e => exact hInv
      | ok pivotBlock =>
        dsimp only
        split
        · rename_i hcond
          unfold CursorInv at hInv ⊢
          unfold handleReorg popHashes
          cases hl : h.epochBlockHashList.getLast? with
          | none =>
            exfalso
            have : prevEpochPivotBlockHash h = "" := by
              unfold prevEpochPivotBlockHash
              rw [hl]
            rw [this] at hcond
            exact absurd hcond.1 (by decide)
          | some entry =>
            dsimp only
            have hne : h.epochBlockHashList ≠ [] := by
              intro hemp
              rw [hemp] at hl
              exact Option.noConfusion hl
            have hlen : 1 ≤ h.epochBlockHashList.length := List.length_pos.mpr hne
            have hdrop : h.epochBlockHashList.dropLast.length
                = h.epochBlockHashList.length - 1 := by
              simp [List.length_dropLast]
            rw [hdrop]
            omega
        · cases hfb : fetchBlocks h cfx pivotBlock with
          | error e => exact hInv
          | ok p =>
            obtain ⟨blockHashes, blocks⟩ := p
            dsimp only
            unfold CursorInv at hInv ⊢
            dsimp only
            have := pushHashes_length_le h.epochBlockHashList blockHashes
            omega

/-- The retry loop preserves the cursor invariant. -/
theorem syncLoop_cursorInv (s0 start : Nat) :
    ∀ fuel h idx, CursorInv s0 h → CursorInv s0 (syncLoop start fuel h idx).1 := by
  intro fuel
  induction fuel with
  | zero =>
    intro h idx hInv
    rw [syncLoop.eq_def]
    dsimp only
    rcases hr : trySync h (h.clients.getD idx defaultClient) with ⟨h1s, c1, e1⟩
    have hInv1 : CursorInv s0 h1s := by
      have := trySync_cursorInv s0 h (h.clients.getD idx defaultClient) hInv
      rw [hr] at this
      exact this
    dsimp only
    cases e1 with
    | none => exact hInv1
    | some err =>
      dsimp only
      split
      · exact hInv1
      · split
        · exact hInv1
        · exact hInv1
  | succ fuel ih =>
    intro h idx hInv
    rw [syncLoop.eq_def]
    dsimp only
    rcases hr : trySync h (h.clients.getD idx defaultClient) with ⟨h1s, c1, e1⟩
    have hInv1 : CursorInv s0 h1s := by
      have := trySync_cursorInv s0 h (h.clients.getD idx defaultClient) hInv
      rw [hr] at this
      exact this
    dsimp only
    cases e1 with
    | none => exact hInv1
    | some err =>
      dsimp only
      split
      · exact hInv1
      · split
        · exact hInv1
        · exact ih h1s _ hInv1

/-- One sync call preserves the cursor invariant. -/
theorem sync_cursorInv (s0 : Nat) (h : HandlerState) (hInv : CursorInv s0 h) :
    CursorInv s0 (sync h).1 := by
  unfold sync
  dsimp only
  split
  · exact hInv
  · exact syncLoop_cursorInv s0 _ _ _ _ hInv

/-- The handler state at startup: the configured starting epoch as the
cursor, an empty history and an empty window. -/
def initState (clients : List CfxClient) (cliIndex startEpoch cap : Nat) : HandlerState :=
  { clients := clients, cliIndex := cliIndex, fromEpoch := startEpoch,
    epochBlockHashList := [], window := [], windowCap := cap }

/-- A finite sequence of sync attempts; before each attempt the client
cluster may have been refreshed to an arbitrary list. -/
def runAttempts : HandlerState → List (List CfxClient) → HandlerState
  | h, [] => h
  | h, cs :: rest => runAttempts (sync { h with clients := cs }).1 rest

/-- Any finite sequence of attempts preserves the cursor invariant. -/
theorem runAttempts_cursorInv (s0 : Nat) :
    ∀ steps h, CursorInv s0 h → CursorInv s0 (runAttempts h steps) := by
  intro steps
  induction steps with
  | nil => intro h hInv; exact hInv
  | cons cs rest ih =>
    intro h hInv
    exact ih _ (sync_cursorInv s0 { h with clients := cs } hInv)

/-- Claim C6: starting from the initial state, with the cursor at the
configured starting epoch and an empty epoch hash history, the cursor never
drops below the starting epoch over any finite sequence of sync attempts with
arbitrary clients: the cursor always dominates the starting epoch plus the
history length, each reorg decrement consuming one history entry that only a
prior successful increment created. -/
theorem cursor_never_below_start (clients0 : List CfxClient) (i0 s0 cap : Nat)
    (steps : List (List CfxClient)) :
    s0 ≤ (runAttempts (initState clients0 i0 s0 cap) steps).fromEpoch := by
  have h0 : CursorInv s0 (initState clients0 i0 s0 cap) := by
    unfold CursorInv initState
    simp
  have hfin := runAttempts_cursorInv s0 steps _ h0
  unfold CursorInv at hfin
  omega

end Confura
